import Mathlib

/-!
Verification of the cytokine-effects knowledge base server.

This file gives a shallow embedding of the two core components of the
repository and proves the testable properties of its specification
against that embedding:

* the paginated, multi-filter query service, in its two revisions
  (`src/server/main.py`, embedded in namespace `Main`, and
  `src/server/local_app.py`, embedded in namespace `LocalApp`);
* the chunked CSV ingestion loader of `src/server/import_db.py`,
  embedded in namespace `Ingest`.

A database row is modelled as a function from attribute name to an
optional string value (`none` is SQL NULL).  SQL `ILIKE` is modelled
by an executable pattern matcher `likeMatch` with PostgreSQL semantics
(`%` matches any sequence, `_` any single character, backslash escapes
the next character, comparison is case-insensitive).  The spec-side
notion of case-insensitive substring containment is the independent
function `containsCI`, characterised by `containsCI_spec` below.
-/

set_option maxHeartbeats 1000000

namespace CytokineKB

/-- Case-fold a character list (models Python `.lower()` and SQL `lower`). -/
def lowerL (l : List Char) : List Char := l.map Char.toLower

/-- Spec-side helper: `t`, case-folded, is a leading segment of `s` case-folded. -/
def prefCI : List Char → List Char → Bool
  | [], _ => true
  | _ :: _, [] => false
  | c :: t, d :: s => (d.toLower == c.toLower) && prefCI t s

/-- Spec-side notion: `t` occurs case-insensitively as a contiguous substring of `s`. -/
def infCI (t s : List Char) : Bool := s.tails.any (fun s2 => prefCI t s2)

/-- Spec-side notion lifted to an optional (nullable) column value: a NULL
column contains nothing. -/
def containsCI (v : Option String) (t : String) : Bool :=
  match v with
  | none => false
  | some s => infCI t.data s.data

/-- Worker for `pySplit`. -/
def pySplitGo (sep : Char) : List Char → List Char → List String
  | [], acc => [String.mk acc.reverse]
  | c :: cs, acc =>
    if c = sep then String.mk acc.reverse :: pySplitGo sep cs []
    else pySplitGo sep cs (c :: acc)

/-- Python `str.split(sep)` for a single-character separator, as used by the
sources: `x.split(';')` in the loader's fan-out and `fields.split(',')` in the
query service.  Always returns at least one piece; `"".split(sep) == [""]`. -/
def pySplit (sep : Char) (s : String) : List String := pySplitGo sep s.data []

/-- Python `str.strip()`: drop ASCII whitespace from both ends (the loader and
service only ever see ASCII field names). -/
def pyStrip (s : String) : String :=
  String.mk (((s.data.dropWhile Char.isWhitespace).reverse.dropWhile Char.isWhitespace).reverse)

/-- Code-point lexicographic comparison of character lists, the order Python's
`sorted` uses on strings. -/
def strLeL : List Char → List Char → Bool
  | [], _ => true
  | _ :: _, [] => false
  | c :: cs, d :: ds => if c = d then strLeL cs ds else decide (c < d)

/-- Code-point lexicographic comparison of strings (Python string order). -/
def strLe (a b : String) : Bool := strLeL a.data b.data

/-- Python `sorted` on a list of strings. -/
def pySorted (l : List String) : List String :=
  List.insertionSort (fun a b => strLe a b = true) l

/-- PostgreSQL `ILIKE` pattern matching: first argument is the pattern
(`%` matches any sequence, `_` matches any single character, `\` escapes the
following character), second the subject; characters compare case-insensitively. -/
def likeMatch : List Char → List Char → Bool
  | [], s => s.isEmpty
  | c :: p, s =>
    if c = '%' then s.tails.any (fun s2 => likeMatch p s2)
    else if c = '_' then
      match s with
      | [] => false
      | _ :: s2 => likeMatch p s2
    else if c = '\\' then
      match p with
      | [] => false
      | e :: p2 =>
        match s with
        | [] => false
        | d :: s2 => (d.toLower == e.toLower) && likeMatch p2 s2
    else
      match s with
      | [] => false
      | d :: s2 => (d.toLower == c.toLower) && likeMatch p s2

/-- SQL `column ILIKE pattern` on a nullable column: NULL never matches
(the SQL result is NULL, which a WHERE clause treats as false). -/
def ilikeNull (v : Option String) (pat : String) : Bool :=
  match v with
  | none => false
  | some s => likeMatch pat.data s.data

/-- Python truthiness of an optional string parameter: `if param:` takes the
branch exactly when the parameter was supplied and is non-empty. -/
def present (v : Option String) : Bool :=
  match v with
  | none => false
  | some s => s != ""

/-- Value of a present optional parameter. -/
def optVal (v : Option String) : String := v.getD ""

/-- One `if param: query = query.filter(col.ilike(f"%param%"))` step of the
query builders: a row passes when the parameter is absent or empty, otherwise
when its column matches the `%value%` pattern. -/
def filterClause (param : Option String) (cell : Option String) : Bool :=
  match param with
  | none => true
  | some s => if s == "" then true else ilikeNull cell ("%" ++ s ++ "%")

/-- Search-term restriction for refinement statements: terms containing none of
the `LIKE` metacharacters `%`, `_` and `\`. -/
def litOk (t : List Char) : Prop := ∀ c ∈ t, c ≠ '%' ∧ c ≠ '_' ∧ c ≠ '\\'

instance (t : List Char) : Decidable (litOk t) := by
  unfold litOk; infer_instance

/-- Restriction `litOk` lifted to an optional parameter. -/
def litOkOpt (v : Option String) : Prop := ∀ s, v = some s → litOk s.data

instance (v : Option String) : Decidable (litOkOpt v) := by
  cases v with
  | none => exact isTrue (by intro s h; cases h)
  | some s =>
    by_cases h : litOk s.data
    · exact isTrue (by intro u hu; cases hu; exact h)
    · exact isFalse (by intro hall; exact h (hall s rfl))

/-- Database row: attribute name to nullable string value (SQL NULL is `none`). -/
abbrev Row := String → Option String

/-- Shape of the JSON body returned by `GET /api/interactions` in both server
revisions: projected rows, the pagination block, and the echo of applied filters. -/
structure Response where
  data : List (List (String × Option String))
  page : Nat
  limit : Nat
  total : Nat
  total_pages : Nat
  filters : List (String × String)

end CytokineKB

namespace CytokineKB.Main

/-- Recognized column set of `src/server/main.py` (`ALL_COLUMNS`, lines 39-69). -/
def ALL_COLUMNS : List String :=
  ["id", "chunk_id", "key_sentences", "cell_type", "cytokine_name",
   "confidence_score", "cytokine_effect", "cytokine_effect_original",
   "regulated_genes", "gene_response_type", "regulated_pathways",
   "pathway_response_type", "regulated_cell_processes", "cell_process_category",
   "cell_process_response_type", "species", "necessary_condition",
   "experimental_concentration", "experimental_perturbation",
   "experimental_readout", "experimental_readout_category",
   "experimental_system_type", "experimental_system_details",
   "experimental_time_point", "causality_type", "causality_description",
   "publication_type", "mapped_citation_id", "url"]

/-- Query parameters of `get_interactions` in `main.py` (lines 150-161), with
FastAPI defaults `page=1`, `limit=50` filled in by the caller model. -/
structure Params where
  page : Nat
  limit : Nat
  fields : Option String
  cytokine_name : Option String
  cell_type : Option String
  species : Option String
  regulated_genes : Option String
  causality_type : Option String
  experimental_system_type : Option String
  publication_type : Option String
  search : Option String

/-- Global-search clause of `main.py` (lines 189-198): `%search%` ORed over
cytokine_name, cell_type, cytokine_effect, species and regulated_genes. -/
def searchClause (p : Params) (r : Row) : Bool :=
  match p.search with
  | none => true
  | some s =>
    if s == "" then true
    else
      ilikeNull (r "cytokine_name") ("%" ++ s ++ "%") ||
      ilikeNull (r "cell_type") ("%" ++ s ++ "%") ||
      ilikeNull (r "cytokine_effect") ("%" ++ s ++ "%") ||
      ilikeNull (r "species") ("%" ++ s ++ "%") ||
      ilikeNull (r "regulated_genes") ("%" ++ s ++ "%")

/-- Conjunction of the dynamically added WHERE clauses of `get_interactions`
in `main.py` (lines 163-199), in source order. -/
def rowMatches (p : Params) (r : Row) : Bool :=
  filterClause p.cytokine_name (r "cytokine_name") &&
  filterClause p.cell_type (r "cell_type") &&
  filterClause p.species (r "species") &&
  filterClause p.causality_type (r "causality_type") &&
  filterClause p.experimental_system_type (r "experimental_system_type") &&
  filterClause p.publication_type (r "publication_type") &&
  filterClause p.regulated_genes (r "regulated_genes") &&
  searchClause p r

/-- Result set of the composed query before pagination; `query.count()` is its
length and the page fetch slices it. -/
def filteredRows (p : Params) (db : List Row) : List Row :=
  db.filter (fun r => rowMatches p r)

/-- Echo of the filters actually applied (`filters` dict built in lines 163-199). -/
def filtersEcho (p : Params) : List (String × String) :=
  (if present p.cytokine_name then [("cytokine_name", optVal p.cytokine_name)] else []) ++
  (if present p.cell_type then [("cell_type", optVal p.cell_type)] else []) ++
  (if present p.species then [("species", optVal p.species)] else []) ++
  (if present p.causality_type then [("causality_type", optVal p.causality_type)] else []) ++
  (if present p.experimental_system_type then
    [("experimental_system_type", optVal p.experimental_system_type)] else []) ++
  (if present p.publication_type then [("publication_type", optVal p.publication_type)] else []) ++
  (if present p.regulated_genes then [("regulated_genes", optVal p.regulated_genes)] else []) ++
  (if present p.search then [("search", optVal p.search)] else [])

/-- Field resolution of `main.py` (lines 207-210): when `fields` is truthy,
split on commas, strip, and keep names in `ALL_COLUMNS`; otherwise the full set. -/
def requestedFields (fields : Option String) : List String :=
  match fields with
  | none => ALL_COLUMNS
  | some f =>
    if f == "" then ALL_COLUMNS
    else ((pySplit ',' f).map pyStrip).filter (fun x => ALL_COLUMNS.contains x)

/-- The `GET /api/interactions` handler of `main.py` (lines 149-226): compose
the predicate, count, slice one page with `offset = (page-1)*limit`, project
each row to the resolved fields, and report `total_pages = (total+limit-1)//limit`. -/
def get_interactions (p : Params) (db : List Row) : Response :=
  let filtered := filteredRows p db
  let total := filtered.length
  let offset := (p.page - 1) * p.limit
  let results := (filtered.drop offset).take p.limit
  let rf := requestedFields p.fields
  { data := results.map (fun r => rf.map (fun f => (f, r f)))
    page := p.page
    limit := p.limit
    total := total
    total_pages := (total + p.limit - 1) / p.limit
    filters := filtersEcho p }

/-- The `GET /api/filters/{column}` handler of `main.py` (lines 229-244):
reject unrecognized columns with HTTP 400 before touching the store, otherwise
return the distinct non-NULL values (truthy ones only, the `if v[0]` filter),
capped at `limit`, sorted.  Every name in `ALL_COLUMNS` is an attribute of the
model class, so the second 400 guard (`col is None`) is unreachable. -/
def get_filter_options (column : String) (limit : Nat) (db : List Row) :
    Except (Nat × String) (String × List String) :=
  if ALL_COLUMNS.contains column then
    let vals := (((db.map (fun r => r column)).filterMap id).dedup.take limit).filter
      (fun v => v != "")
    Except.ok (column, pySorted vals)
  else
    Except.error (400, "Invalid column: " ++ column)

end CytokineKB.Main

namespace CytokineKB.LocalApp

/-- Recognized column set of `src/server/local_app.py` (`ALL_COLUMNS`,
lines 72-81); note that `id` is not in it. -/
def ALL_COLUMNS : List String :=
  ["cytokine_name", "cell_type", "cytokine_effect", "causality_type",
   "species", "chunk_id", "key_sentences", "citation_id"]

/-- Attributes of the pruned model class `CytokineInteraction` in
`local_app.py` (lines 21-32); `experimental_system_type` and
`publication_type` are absent, which disables those two filters. -/
def modelAttrs : List String :=
  ["id", "cytokine_name", "cell_type", "cytokine_effect", "causality_type",
   "species", "chunk_id", "key_sentences", "citation_id"]

/-- Query parameters of `get_interactions` in `local_app.py` (lines 88-100). -/
structure Params where
  page : Nat
  limit : Nat
  fields : Option String
  cytokine_name : Option String
  cell_type : Option String
  species : Option String
  causality_type : Option String
  experimental_system_type : Option String
  publication_type : Option String
  search : Option String

/-- Global-search clause of `local_app.py` (lines 131-138): `%search%` ORed
over cytokine_name, cell_type, cytokine_effect and species only. -/
def searchClause (p : Params) (r : Row) : Bool :=
  match p.search with
  | none => true
  | some s =>
    if s == "" then true
    else
      ilikeNull (r "cytokine_name") ("%" ++ s ++ "%") ||
      ilikeNull (r "cell_type") ("%" ++ s ++ "%") ||
      ilikeNull (r "cytokine_effect") ("%" ++ s ++ "%") ||
      ilikeNull (r "species") ("%" ++ s ++ "%")

/-- Conjunction of the WHERE clauses of `get_interactions` in `local_app.py`
(lines 106-139).  The `experimental_system_type` and `publication_type`
branches run `hasattr(CytokineInteraction, ...)`, which is false for the
pruned model, so those two parameters add no clause. -/
def rowMatches (p : Params) (r : Row) : Bool :=
  filterClause p.cytokine_name (r "cytokine_name") &&
  filterClause p.cell_type (r "cell_type") &&
  filterClause p.species (r "species") &&
  filterClause p.causality_type (r "causality_type") &&
  searchClause p r

/-- Result set of the composed query before pagination. -/
def filteredRows (p : Params) (db : List Row) : List Row :=
  db.filter (fun r => rowMatches p r)

/-- Echo of the filters dict (lines 107-139); the two disabled parameters are
still echoed when present even though they add no clause. -/
def filtersEcho (p : Params) : List (String × String) :=
  (if present p.cytokine_name then [("cytokine_name", optVal p.cytokine_name)] else []) ++
  (if present p.cell_type then [("cell_type", optVal p.cell_type)] else []) ++
  (if present p.species then [("species", optVal p.species)] else []) ++
  (if present p.causality_type then [("causality_type", optVal p.causality_type)] else []) ++
  (if present p.experimental_system_type then
    [("experimental_system_type", optVal p.experimental_system_type)] else []) ++
  (if present p.publication_type then [("publication_type", optVal p.publication_type)] else []) ++
  (if present p.search then [("search", optVal p.search)] else [])

/-- Field resolution of `local_app.py` (lines 149-154): when `fields` is
truthy, `'id'` is unconditionally prepended to the requested names that are in
`ALL_COLUMNS` and differ from `'id'`; otherwise the full `ALL_COLUMNS`. -/
def requestedFields (fields : Option String) : List String :=
  match fields with
  | none => ALL_COLUMNS
  | some f =>
    if f == "" then ALL_COLUMNS
    else
      "id" :: ((pySplit ',' f).map pyStrip).filter
        (fun x => ALL_COLUMNS.contains x && x != "id")

/-- The `GET /api/interactions` handler of `local_app.py` (lines 87-173);
`getattr(row, field, None)` is the row function itself, absent attributes
being `none`. -/
def get_interactions (p : Params) (db : List Row) : Response :=
  let filtered := filteredRows p db
  let total := filtered.length
  let offset := (p.page - 1) * p.limit
  let results := (filtered.drop offset).take p.limit
  let rf := requestedFields p.fields
  { data := results.map (fun r => rf.map (fun f => (f, r f)))
    page := p.page
    limit := p.limit
    total := total
    total_pages := (total + p.limit - 1) / p.limit
    filters := filtersEcho p }

/-- The `GET /api/filters/{column}` handler of `local_app.py` (lines 176-191),
identical in code to the one in `main.py` but over the pruned column set. -/
def get_filter_options (column : String) (limit : Nat) (db : List Row) :
    Except (Nat × String) (String × List String) :=
  if ALL_COLUMNS.contains column then
    let vals := (((db.map (fun r => r column)).filterMap id).dedup.take limit).filter
      (fun v => v != "")
    Except.ok (column, pySorted vals)
  else
    Except.error (400, "Invalid column: " ++ column)

end CytokineKB.LocalApp

namespace CytokineKB.Ingest

/-- Declared column order of `src/server/import_db.py` (`FIELDS`, lines 23-52). -/
def FIELDS : List String :=
  ["chunk_id", "key_sentences", "cell_type", "cytokine_name",
   "confidence_score", "cytokine_effect", "cytokine_effect_original",
   "regulated_genes", "gene_response_type", "regulated_pathways",
   "pathway_response_type", "regulated_cell_processes", "cell_process_category",
   "cell_process_response_type", "species", "necessary_condition",
   "experimental_concentration", "experimental_perturbation",
   "experimental_readout", "experimental_readout_category",
   "experimental_system_type", "experimental_system_details",
   "experimental_time_point", "causality_type", "causality_description",
   "publication_type", "mapped_citation_id", "url"]

/-- Batch size of the loader (`CHUNK_SIZE = 10000`, line 22). -/
def CHUNK_SIZE : Nat := 10000

/-- Errors that abort an ingestion run: a pandas `KeyError` for a declared
column absent from the source frame, and the `AttributeError` raised by
`None.split(';')` when a `cytokine_name` cell is NULL after null-normalization. -/
inductive ImpErr where
  | keyError (c : String)
  | splitNone
deriving DecidableEq

/-- Projected row actually written to the table: the declared columns in
`FIELDS` order with their values. -/
abbrev PRow := List (String × Option String)

/-- Fuel-driven worker for `chunksOf` (structural, so that it evaluates). -/
def chunksOfFuel {α : Type} (n : Nat) : Nat → List α → List (List α)
  | _, [] => []
  | 0, _ :: _ => []
  | fuel + 1, x :: xs => (x :: xs.take (n - 1)) :: chunksOfFuel n fuel (xs.drop (n - 1))

/-- Split a list into consecutive chunks of size `n` (the last may be short),
models `pd.read_csv(..., chunksize=n)`: a source with no data rows yields no
chunks at all, so the per-chunk body of the loader never runs for it. -/
def chunksOf {α : Type} (n : Nat) (l : List α) : List (List α) := chunksOfFuel n l.length l

/-- Functional update of one cell of a row. -/
def setCell (r : Row) (c : String) (v : Option String) : Row :=
  fun c2 => if c2 = c then v else r c2

/-- The `x.split(';')` fan-out of one source row (lines 238-239 of
`import_db.py`): `KeyError`-free only because `fanOutChunk` checks the column
first; raises on a NULL cell, else one row per `';'`-separated piece with every
other cell unchanged. -/
def explodeRow (r : Row) : Except ImpErr (List Row) :=
  match r "cytokine_name" with
  | none => Except.error ImpErr.splitNone
  | some s => Except.ok ((pySplit ';' s).map (fun v => setCell r "cytokine_name" (some v)))

/-- Lines 238-239 of `import_db.py` applied to a whole chunk: accessing the
`cytokine_name` column raises `KeyError` when the source lacks it; otherwise
`apply(lambda x: x.split(';'))` runs left to right, stopping at the first NULL
cell, and `explode` concatenates the per-row expansions. -/
def fanOutChunk (cols : List String) (chunk : List Row) : Except ImpErr (List Row) :=
  if cols.contains "cytokine_name" then
    (chunk.mapM explodeRow).map List.flatten
  else Except.error (ImpErr.keyError "cytokine_name")

/-- Projection of one exploded row to the declared columns (`chunk[FIELDS]`). -/
def projectRow (r : Row) : PRow := FIELDS.map (fun f => (f, r f))

/-- Per-chunk body of the loader's loop (lines 235-249 of `import_db.py`):
null-normalize (already implicit in the `Option` cells), fan out, and — when
the exploded chunk is non-empty — project to `FIELDS` (a `KeyError` if some
declared column is absent from the source) and hand the batch to `to_sql`. -/
def processChunk (cols : List String) (chunk : List Row) : Except ImpErr (List PRow) := do
  let exploded ← fanOutChunk cols chunk
  if exploded.length ≠ 0 then
    match FIELDS.find? (fun f => !cols.contains f) with
    | some f => Except.error (ImpErr.keyError f)
    | none => Except.ok (exploded.map projectRow)
  else Except.ok []

/-- Chunk loop of `import_csv`: process chunks in order, appending each written
batch; the first uncaught exception aborts the run, leaving the batches already
appended in the table. -/
def ingestGo (cols : List String) :
    List (List Row) → List (List PRow) → List (List PRow) × Option ImpErr
  | [], acc => (acc.reverse, none)
  | c :: cs, acc =>
    match processChunk cols c with
    | Except.error e => (acc.reverse, some e)
    | Except.ok b => ingestGo cols cs (b :: acc)

/-- The `import_csv` function of `import_db.py` (lines 215-254) on a source
frame with header `cols` and data rows `rows`: the list of batches appended to
`cytokine_effects`, in order, together with the error that aborted the run, if
any. -/
def ingestBatches (cols : List String) (rows : List Row) :
    List (List PRow) × Option ImpErr :=
  ingestGo cols (chunksOf CHUNK_SIZE rows) []

/-- All rows stored by a run (the concatenation of the appended batches). -/
def storedRows (cols : List String) (rows : List Row) : List PRow :=
  (ingestBatches cols rows).1.flatten

/-- Exit code of the loader CLI (`main`, lines 302-329 of `import_db.py`): the
`try` block around the import steps catches any exception, prints it and calls
`sys.exit(1)`; otherwise the process ends with 0. -/
def ingestExit (cols : List String) (rows : List Row) : Nat :=
  if (ingestBatches cols rows).2.isSome then 1 else 0

/-- Spec-side per-row fan-out: the rows that ingestion should store for one
source row — one per `';'`-separated piece of its `cytokine_name`, identical
to the source row in every other declared column. -/
def storedOf (r : Row) : List PRow :=
  match r "cytokine_name" with
  | none => []
  | some s => (pySplit ';' s).map (fun v => projectRow (setCell r "cytokine_name" (some v)))

end CytokineKB.Ingest

namespace CytokineKB

/-- Build a concrete row from an association list of column values (cells not
listed are NULL), used for the concrete instances below. -/
def rowOf (l : List (String × String)) : Row := fun c => l.lookup c

/-- Row whose cytokine_name is the literal string axb. -/
def rowAxb : Row := rowOf [("cytokine_name", "axb")]

/-- Typical interaction row. -/
def rowIL6 : Row := rowOf [("cytokine_name", "IL-6"), ("cell_type", "T cell"), ("species", "mouse")]

/-- Row storing the empty string (non-NULL) in the species column. -/
def rowEmptySpecies : Row := rowOf [("species", "")]

/-- Store with case-sensitively distinct species values. -/
def rowsSpecies : List Row :=
  [rowOf [("species", "IL-6")], rowOf [("species", "il-6")], rowOf [("species", "TNF")]]

end CytokineKB

namespace CytokineKB.Main

/-- Request with the FastAPI defaults and no filters. -/
def defaultParams : Params :=
  { page := 1, limit := 50, fields := none, cytokine_name := none, cell_type := none,
    species := none, regulated_genes := none, causality_type := none,
    experimental_system_type := none, publication_type := none, search := none }

/-- Request with only the search parameter set. -/
def searchOnly (t : String) : Params := { defaultParams with search := some t }

/-- Request whose cytokine_name filter value carries a LIKE wildcard. -/
def pWild : Params := { defaultParams with cytokine_name := some "a_b" }

/-- Request combining two named filters. -/
def pMainTwo : Params := { defaultParams with cytokine_name := some "il", species := some "MOUSE" }

end CytokineKB.Main

namespace CytokineKB.LocalApp

/-- Request with the FastAPI defaults and no filters. -/
def defaultParams : Params :=
  { page := 1, limit := 50, fields := none, cytokine_name := none, cell_type := none,
    species := none, causality_type := none, experimental_system_type := none,
    publication_type := none, search := none }

/-- Request with only the search parameter set. -/
def searchOnly (t : String) : Params := { defaultParams with search := some t }

/-- Request setting only the disabled experimental_system_type filter. -/
def pVest : Params := { defaultParams with experimental_system_type := some "zzz" }

/-- Request combining two named filters. -/
def pLocalTwo : Params := { defaultParams with cytokine_name := some "il", species := some "MOUSE" }

/-- Request selecting one recognized and one bogus field. -/
def pFieldsLocal : Params := { defaultParams with fields := some "cytokine_name,bogus_field" }

end CytokineKB.LocalApp

namespace CytokineKB.Ingest

/-- Source row 1 of the three-row example file. -/
def exRow1 : Row := rowOf [("cytokine_name", "TNF"), ("cell_type", "B cell")]

/-- Source row 2, whose fan-out field holds two values. -/
def exRow2 : Row := rowOf [("cytokine_name", "IL-6;IL-10"), ("cell_type", "T cell")]

/-- Source row 3 of the three-row example file. -/
def exRow3 : Row := rowOf [("cytokine_name", "IFN-g"), ("cell_type", "NK cell")]

/-- The three-row example file of the specification. -/
def exRows : List Row := [exRow1, exRow2, exRow3]

/-- Source row whose cytokine_name cell is missing (NULL after normalization). -/
def nullRow : Row := rowOf [("cell_type", "T cell")]

/-- Source header missing the declared url column. -/
def colsMissingUrl : List String := FIELDS.erase "url"

/-- Source header with an extra column not in the declared set. -/
def exColsExtra : List String := FIELDS ++ ["extra_source_column"]

end CytokineKB.Ingest

namespace CytokineKB

theorem anyCongr {α : Type} (l : List α) (f g : α → Bool) (h : ∀ x ∈ l, f x = g x) :
    l.any f = l.any g := by
  induction l with
  | nil => rfl
  | cons x xs ih =>
    simp only [List.any_cons]
    rw [h x (by simp), ih (fun y hy => h y (by simp [hy]))]

theorem likeMatch_cons (c : Char) (p s : List Char) :
    likeMatch (c :: p) s =
      if c = '%' then s.tails.any (fun s2 => likeMatch p s2)
      else if c = '_' then
        (match s with
         | [] => false
         | _ :: s2 => likeMatch p s2)
      else if c = '\\' then
        (match p with
         | [] => false
         | e :: p2 =>
           match s with
           | [] => false
           | d :: s2 => (d.toLower == e.toLower) && likeMatch p2 s2)
      else
        (match s with
         | [] => false
         | d :: s2 => (d.toLower == c.toLower) && likeMatch p s2) := by
  rw [likeMatch.eq_def]

theorem likeMatch_lit (t : List Char) (ht : litOk t) :
    ∀ s, likeMatch (t ++ ['%']) s = prefCI t s := by
  induction t with
  | nil =>
    intro s
    simp only [List.nil_append, prefCI]
    show likeMatch ['%'] s = true
    simp only [likeMatch, if_pos]
    apply List.any_eq_true.mpr
    refine ⟨[], (List.mem_tails _ _).mpr List.nil_suffix, by simp⟩
  | cons c t ih =>
    intro s
    have hc := ht c (by simp)
    have ht' : litOk t := fun d hd => ht d (by simp [hd])
    rw [List.cons_append, likeMatch_cons, if_neg hc.1, if_neg hc.2.1, if_neg hc.2.2]
    cases s with
    | nil => rfl
    | cons d s2 => simp [prefCI, ih ht' s2]



theorem likeMatch_pct (p s : List Char) :
    likeMatch ('%' :: p) s = s.tails.any (fun s2 => likeMatch p s2) := by
  rw [likeMatch_cons, if_pos rfl]

theorem data_pct_pat (t : String) :
    ("%" ++ t ++ "%").data = '%' :: (t.data ++ ['%']) := by
  simp [String.data_append]

theorem ilike_eq_containsCI (t : String) (ht : litOk t.data) (v : Option String) :
    ilikeNull v ("%" ++ t ++ "%") = containsCI v t := by
  cases v with
  | none => rfl
  | some s =>
    show likeMatch ("%" ++ t ++ "%").data s.data = infCI t.data s.data
    rw [data_pct_pat, likeMatch_pct, infCI]
    exact anyCongr _ _ _ (fun u _ => likeMatch_lit t.data ht u)

theorem prefCI_spec (t : List Char) :
    ∀ s, prefCI t s = true ↔ ∃ rest, lowerL s = lowerL t ++ rest := by
  induction t with
  | nil =>
    intro s
    simp [prefCI, lowerL]
  | cons c t ih =>
    intro s
    cases s with
    | nil =>
      simp only [prefCI, lowerL, List.map_nil, List.map_cons]
      constructor
      · intro h; cases h
      · rintro ⟨rest, h⟩; cases h
    | cons d s2 =>
      simp only [prefCI, lowerL, List.map_cons, Bool.and_eq_true, beq_iff_eq,
        List.cons_append, List.cons.injEq]
      constructor
      · rintro ⟨h1, h2⟩
        obtain ⟨rest, hr⟩ := (ih s2).mp h2
        simp only [lowerL] at hr
        exact ⟨rest, h1, hr⟩
      · rintro ⟨rest, h1, hr⟩
        refine ⟨h1, (ih s2).mpr ⟨rest, ?_⟩⟩
        simp only [lowerL]
        exact hr

theorem containsCI_spec (t s : String) :
    containsCI (some s) t = true ↔
      ∃ pre post, lowerL s.data = pre ++ lowerL t.data ++ post := by
  show infCI t.data s.data = true ↔ _
  rw [infCI, List.any_eq_true]
  constructor
  · rintro ⟨u, hu, hp⟩
    obtain ⟨w, hw⟩ := (List.mem_tails _ _).mp hu
    obtain ⟨rest, hr⟩ := (prefCI_spec t.data u).mp hp
    refine ⟨lowerL w, rest, ?_⟩
    rw [← hw]
    simp only [lowerL, List.map_append] at hr ⊢
    rw [hr]
    simp [List.append_assoc]
  · rintro ⟨pre, post, h⟩
    refine ⟨s.data.drop pre.length, (List.mem_tails _ _).mpr (List.drop_suffix _ _), ?_⟩
    apply (prefCI_spec t.data _).mpr
    refine ⟨post, ?_⟩
    have hd : lowerL (s.data.drop pre.length) = (lowerL s.data).drop pre.length := by
      simp [lowerL, List.map_drop]
    rw [hd, h, List.append_assoc, List.drop_left]

theorem filterClause_iff (v cell : Option String) (hv : litOkOpt v) :
    filterClause v cell = true ↔
      (present v = true → containsCI cell (optVal v) = true) := by
  cases v with
  | none => simp [filterClause, present]
  | some s =>
    by_cases hs : s = ""
    · subst hs
      simp [filterClause, present]
    · have hbe : (s == "") = false := by simp [hs]
      simp only [filterClause, hbe, Bool.false_eq_true, if_false, present, optVal, Option.getD]
      rw [ilike_eq_containsCI s (hv s rfl) cell]
      simp [hs]

theorem mem_filteredRows_main (p : Main.Params) (r : Row) (db : List Row) :
    r ∈ Main.filteredRows p db ↔ r ∈ db ∧ Main.rowMatches p r = true := by
  simp [Main.filteredRows, List.mem_filter]

theorem mem_filteredRows_local (p : LocalApp.Params) (r : Row) (db : List Row) :
    r ∈ LocalApp.filteredRows p db ↔ r ∈ db ∧ LocalApp.rowMatches p r = true := by
  simp [LocalApp.filteredRows, List.mem_filter]

theorem searchClause_iff_main (p : Main.Params) (r : Row) (hs : litOkOpt p.search) :
    Main.searchClause p r = true ↔
      (present p.search = true →
        (containsCI (r "cytokine_name") (optVal p.search) ||
         containsCI (r "cell_type") (optVal p.search) ||
         containsCI (r "cytokine_effect") (optVal p.search) ||
         containsCI (r "species") (optVal p.search) ||
         containsCI (r "regulated_genes") (optVal p.search)) = true) := by
  rcases hps : p.search with _ | s
  · simp [Main.searchClause, hps, present]
  · by_cases hse : s = ""
    · subst hse
      simp [Main.searchClause, hps, present]
    · have hbe : (s == "") = false := by simp [hse]
      have hlit : litOk s.data := hs s hps
      simp only [Main.searchClause, hps, hbe, Bool.false_eq_true, if_false, present, optVal,
        Option.getD]
      rw [ilike_eq_containsCI s hlit (r "cytokine_name"),
        ilike_eq_containsCI s hlit (r "cell_type"),
        ilike_eq_containsCI s hlit (r "cytokine_effect"),
        ilike_eq_containsCI s hlit (r "species"),
        ilike_eq_containsCI s hlit (r "regulated_genes")]
      simp [hse]

theorem searchClause_iff_local (p : LocalApp.Params) (r : Row) (hs : litOkOpt p.search) :
    LocalApp.searchClause p r = true ↔
      (present p.search = true →
        (containsCI (r "cytokine_name") (optVal p.search) ||
         containsCI (r "cell_type") (optVal p.search) ||
         containsCI (r "cytokine_effect") (optVal p.search) ||
         containsCI (r "species") (optVal p.search)) = true) := by
  rcases hps : p.search with _ | s
  · simp [LocalApp.searchClause, hps, present]
  · by_cases hse : s = ""
    · subst hse
      simp [LocalApp.searchClause, hps, present]
    · have hbe : (s == "") = false := by simp [hse]
      have hlit : litOk s.data := hs s hps
      simp only [LocalApp.searchClause, hps, hbe, Bool.false_eq_true, if_false, present, optVal,
        Option.getD]
      rw [ilike_eq_containsCI s hlit (r "cytokine_name"),
        ilike_eq_containsCI s hlit (r "cell_type"),
        ilike_eq_containsCI s hlit (r "cytokine_effect"),
        ilike_eq_containsCI s hlit (r "species")]
      simp [hse]

theorem pageWindow (n page limit : Nat) (hp : 1 ≤ page) (hl : 1 ≤ limit)
    (h : page < (n + limit - 1) / limit) : limit + (page - 1) * limit ≤ n := by
  have h1 : page + 1 ≤ (n + limit - 1) / limit := h
  have h2 : (page + 1) * limit ≤ n + limit - 1 := (Nat.le_div_iff_mul_le hl).mp h1
  have h3 : (page + 1) * limit = (page - 1) * limit + 2 * limit := by
    have hpe : page + 1 = (page - 1) + 2 := by omega
    rw [hpe, Nat.add_mul]
  omega

theorem pageSlice_le {α : Type} (l : List α) (o k : Nat) : ((l.drop o).take k).length ≤ k := by
  simp [List.length_take]

theorem pageSlice_eq {α : Type} (l : List α) (o k : Nat) (h : k + o ≤ l.length) :
    ((l.drop o).take k).length = k := by
  simp [List.length_take, List.length_drop]
  omega

theorem keys_of_item {β : Type} (rf : List String) (g : String → β) :
    (rf.map (fun f => (f, g f))).map Prod.fst = rf := by
  simp [List.map_map]
  exact List.map_id rf

-- order lemmas for pySorted
theorem strLeL_total (a : List Char) : ∀ b, strLeL a b = true ∨ strLeL b a = true := by
  induction a with
  | nil => intro b; left; rfl
  | cons c cs ih =>
    intro b
    cases b with
    | nil => right; rfl
    | cons d ds =>
      by_cases hcd : c = d
      · subst hcd
        rcases ih ds with h | h
        · left; simp [strLeL, h]
        · right; simp [strLeL, h]
      · rcases lt_or_gt_of_ne hcd with h | h
        · left; simp [strLeL, if_neg hcd, h]
        · right
          have hdc : d ≠ c := fun he => hcd he.symm
          simp [strLeL, if_neg hdc, h]

theorem strLeL_trans (a : List Char) :
    ∀ b c, strLeL a b = true → strLeL b c = true → strLeL a c = true := by
  induction a with
  | nil => intro b c _ _; rfl
  | cons x xs ih =>
    intro b c hab hbc
    cases b with
    | nil => simp [strLeL] at hab
    | cons y ys =>
      cases c with
      | nil => simp [strLeL] at hbc
      | cons z zs =>
        by_cases hxy : x = y
        · subst hxy
          by_cases hyz : x = z
          · subst hyz
            simp only [strLeL, if_pos rfl] at hab hbc ⊢
            exact ih ys zs hab hbc
          · simp only [strLeL, if_pos rfl] at hab
            simp only [strLeL, if_neg hyz] at hbc ⊢
            exact hbc
        · by_cases hyz : y = z
          · subst hyz
            simp only [strLeL, if_neg hxy] at hab ⊢
            exact hab
          · simp only [strLeL, if_neg hxy] at hab
            simp only [strLeL, if_neg hyz] at hbc
            have hxz : x < z := lt_trans (of_decide_eq_true hab) (of_decide_eq_true hbc)
            have hxz' : x ≠ z := ne_of_lt hxz
            simp [strLeL, if_neg hxz', hxz]

theorem strLeL_not_lt (a : List Char) :
    ∀ b, strLeL a b = true → ¬ List.lt b a := by
  induction a with
  | nil =>
    intro b _ h
    cases h
  | cons c cs ih =>
    intro b hle h
    cases b with
    | nil => simp [strLeL] at hle
    | cons d ds =>
      by_cases hcd : c = d
      · subst hcd
        simp only [strLeL, if_pos rfl] at hle
        cases h with
        | head _ _ h1 => exact lt_irrefl _ h1
        | tail h1 h2 h3 => exact ih ds hle h3
      · simp only [strLeL, if_neg hcd] at hle
        have hlt : c < d := of_decide_eq_true hle
        cases h with
        | head _ _ h1 => exact absurd hlt (not_lt_of_gt h1)
        | tail h1 h2 h3 => exact h2 hlt

theorem strLe_le (a b : String) (h : strLe a b = true) : a ≤ b := by
  apply le_of_not_lt
  intro hba
  rw [String.lt_iff_toList_lt] at hba
  have hba2 : List.lt b.data a.data := (List.lt_iff_lex_lt _ _).mpr hba
  exact strLeL_not_lt a.data b.data h hba2

theorem pySorted_perm (l : List String) : (pySorted l).Perm l := List.perm_insertionSort _ l

theorem pySorted_sorted (l : List String) :
    List.Sorted (fun a b => strLe a b = true) (pySorted l) := by
  haveI htot : IsTotal String (fun a b => strLe a b = true) := ⟨fun a b => strLeL_total a.data b.data⟩
  haveI htr : IsTrans String (fun a b => strLe a b = true) :=
    ⟨fun a b c => strLeL_trans a.data b.data c.data⟩
  exact List.sorted_insertionSort _ l

theorem pySorted_sorted_le (l : List String) : List.Sorted (· ≤ ·) (pySorted l) :=
  List.Pairwise.imp (fun h => strLe_le _ _ h) (pySorted_sorted l)

theorem filterPipeline_mem (vals : List (Option String)) (lim : Nat)
    (h : ((vals.filterMap id).dedup).length ≤ lim) (v : String) :
    v ∈ pySorted (((vals.filterMap id).dedup.take lim).filter (fun x => x != "")) ↔
      some v ∈ vals ∧ v ≠ "" := by
  rw [(pySorted_perm _).mem_iff, List.take_of_length_le h, List.mem_filter, List.mem_dedup]
  simp

theorem filterPipeline_nodup (vals : List (Option String)) (lim : Nat) :
    (pySorted (((vals.filterMap id).dedup.take lim).filter (fun x => x != ""))).Nodup := by
  apply (pySorted_perm _).nodup_iff.mpr
  exact (((vals.filterMap id).nodup_dedup).sublist (List.take_sublist _ _)).filter _

theorem filterPipeline_len (vals : List (Option String)) (lim : Nat) :
    (pySorted (((vals.filterMap id).dedup.take lim).filter (fun x => x != ""))).length ≤ lim := by
  rw [(pySorted_perm _).length_eq]
  calc (((vals.filterMap id).dedup.take lim).filter (fun x => x != "")).length
      ≤ ((vals.filterMap id).dedup.take lim).length := List.length_filter_le _ _
    _ ≤ lim := by simp [List.length_take]

theorem contains_false_of_not_mem (l : List String) (a : String) (h : a ∉ l) :
    l.contains a = false := by
  simpa using h

theorem contains_true_of_mem (l : List String) (a : String) (h : a ∈ l) :
    l.contains a = true := by
  simpa using h

theorem pySplitGo_ne_nil (sep : Char) : ∀ (cs acc : List Char), pySplitGo sep cs acc ≠ [] := by
  intro cs
  induction cs with
  | nil => intro acc; simp [pySplitGo]
  | cons c cs ih =>
    intro acc
    by_cases hc : c = sep
    · simp [pySplitGo, hc]
    · simp only [pySplitGo, if_neg hc]
      exact ih (c :: acc)

theorem pySplit_ne_nil (sep : Char) (s : String) : pySplit sep s ≠ [] :=
  pySplitGo_ne_nil sep s.data []

theorem exceptBindErr {ε α β : Type} (e : ε) (g : α → Except ε β) :
    ((Except.error e : Except ε α) >>= g) = Except.error e := rfl

theorem exceptBindOk {ε α β : Type} (x : α) (g : α → Except ε β) :
    ((Except.ok x : Except ε α) >>= g) = g x := rfl

namespace Ingest

theorem mapM_explode_ok (chunk : List Row) (h : ∀ r ∈ chunk, r "cytokine_name" ≠ none) :
    ∃ ls, chunk.mapM explodeRow = Except.ok ls ∧
      ls.map (List.map projectRow) = chunk.map storedOf ∧
      (∀ l ∈ ls, l ≠ []) ∧ ls.length = chunk.length := by
  rw [← List.mapM'_eq_mapM]
  induction chunk with
  | nil => exact ⟨[], rfl, rfl, by simp, rfl⟩
  | cons r rest ih =>
    obtain ⟨ls, hls, hmap, hne, hlen⟩ := ih (fun x hx => h x (by simp [hx]))
    rcases hr : r "cytokine_name" with _ | s
    · exact absurd hr (h r (by simp))
    · refine ⟨(pySplit ';' s).map (fun v => setCell r "cytokine_name" (some v)) :: ls, ?_, ?_, ?_, ?_⟩
      · show (explodeRow r >>= fun x => List.mapM' explodeRow rest >>= fun xs => pure (x :: xs)) = _
        rw [explodeRow, hr]
        show (List.mapM' explodeRow rest >>= fun xs => pure (_ :: xs)) = _
        rw [hls]
        rfl
      · simp only [List.map_cons, hmap, List.map_map, storedOf, hr]
        rfl
      · intro l hl
        rcases List.mem_cons.mp hl with h1 | h1
        · subst h1
          intro hcon
          exact pySplit_ne_nil ';' s (List.map_eq_nil_iff.mp hcon)
        · exact hne l h1
      · simp [hlen]

theorem mapM_ok_forall {ε α β : Type} (f : α → Except ε β) :
    ∀ (l : List α) (ys : List β), l.mapM f = Except.ok ys → ∀ x ∈ l, ∃ y, f x = Except.ok y := by
  intro l
  rw [← List.mapM'_eq_mapM]
  induction l with
  | nil => intro ys _ x hx; simp at hx
  | cons a rest ih =>
    intro ys hok x hx
    rcases hfa : f a with e | y
    · rw [show List.mapM' f (a :: rest) =
        (f a >>= fun b => List.mapM' f rest >>= fun bs => pure (b :: bs)) from rfl, hfa,
        exceptBindErr] at hok
      cases hok
    · rcases hrest : List.mapM' f rest with e2 | ys2
      · rw [show List.mapM' f (a :: rest) =
          (f a >>= fun b => List.mapM' f rest >>= fun bs => pure (b :: bs)) from rfl,
          hfa, exceptBindOk, hrest, exceptBindErr] at hok
        cases hok
      · rcases List.mem_cons.mp hx with h1 | h1
        · exact ⟨y, h1 ▸ hfa⟩
        · exact ih ys2 hrest x h1

theorem mapM_cons_ok {ε α β : Type} (f : α → Except ε β) (a : α) (rest : List α) (ys : List β)
    (h : (a :: rest).mapM f = Except.ok ys) :
    ∃ y ys2, f a = Except.ok y ∧ rest.mapM f = Except.ok ys2 ∧ ys = y :: ys2 := by
  rw [← List.mapM'_eq_mapM] at h
  rcases hfa : f a with e | y
  · rw [show List.mapM' f (a :: rest) =
      (f a >>= fun b => List.mapM' f rest >>= fun bs => pure (b :: bs)) from rfl, hfa,
      exceptBindErr] at h
    cases h
  · rcases hrest : List.mapM' f rest with e2 | ys2
    · rw [show List.mapM' f (a :: rest) =
        (f a >>= fun b => List.mapM' f rest >>= fun bs => pure (b :: bs)) from rfl,
        hfa, exceptBindOk, hrest, exceptBindErr] at h
      cases h
    · rw [show List.mapM' f (a :: rest) =
        (f a >>= fun b => List.mapM' f rest >>= fun bs => pure (b :: bs)) from rfl,
        hfa, exceptBindOk, hrest] at h
      refine ⟨y, ys2, rfl, ?_, ?_⟩
      · rw [← List.mapM'_eq_mapM]; exact hrest ▸ rfl
      · have : Except.ok (ε := ε) (y :: ys2) = Except.ok ys := h
        cases this
        rfl

end Ingest

theorem listDropRec {α : Type} (m : Nat) (P : List α → Prop) (h0 : P [])
    (h1 : ∀ x (xs : List α), P (xs.drop m) → P (x :: xs)) : ∀ l, P l := by
  suffices h : ∀ k (l : List α), l.length = k → P l from fun l => h l.length l rfl
  intro k
  induction k using Nat.strong_induction_on with
  | _ k ih =>
    intro l hl
    cases l with
    | nil => exact h0
    | cons x xs =>
      apply h1
      apply ih (xs.drop m).length _ _ rfl
      simp only [List.length_drop]
      simp only [List.length_cons] at hl
      omega

theorem flatten_map_flatten {α β : Type} (f : α → List β) :
    ∀ L : List (List α), (L.map (fun c => (c.map f).flatten)).flatten = (L.flatten.map f).flatten := by
  intro L
  induction L with
  | nil => rfl
  | cons c cs ih => simp [List.map_append, List.flatten_append, ih]

namespace Ingest

theorem chunksOfFuel_congr {α : Type} (n : Nat) :
    ∀ (f1 f2 : Nat) (l : List α), l.length ≤ f1 → l.length ≤ f2 →
      chunksOfFuel n f1 l = chunksOfFuel n f2 l := by
  intro f1
  induction f1 with
  | zero =>
    intro f2 l h1 _
    have hl : l = [] := List.length_eq_zero.mp (Nat.le_zero.mp h1)
    subst hl
    cases f2 <;> rfl
  | succ f1 ih =>
    intro f2 l h1 h2
    cases l with
    | nil => cases f2 <;> rfl
    | cons x xs =>
      cases f2 with
      | zero => simp at h2
      | succ f2 =>
        show (x :: xs.take (n - 1)) :: chunksOfFuel n f1 (xs.drop (n - 1)) =
          (x :: xs.take (n - 1)) :: chunksOfFuel n f2 (xs.drop (n - 1))
        congr 1
        simp only [List.length_cons, Nat.succ_le_succ_iff] at h1 h2
        apply ih
        · simp only [List.length_drop]; omega
        · simp only [List.length_drop]; omega

theorem chunksOf_cons {α : Type} (n : Nat) (x : α) (xs : List α) :
    chunksOf n (x :: xs) = (x :: xs.take (n - 1)) :: chunksOf n (xs.drop (n - 1)) := by
  show chunksOfFuel n ((x :: xs).length) (x :: xs) = _
  rw [show chunksOfFuel n ((x :: xs).length) (x :: xs) =
    (x :: xs.take (n - 1)) :: chunksOfFuel n xs.length (xs.drop (n - 1)) from rfl]
  congr 1
  exact chunksOfFuel_congr n xs.length _ _ (by simp only [List.length_drop]; omega) le_rfl

theorem chunksOf_flatten {α : Type} (n : Nat) : ∀ l : List α, (chunksOf n l).flatten = l := by
  apply listDropRec (n - 1)
  · rfl
  · intro x xs ih
    rw [chunksOf_cons]
    simp only [List.flatten_cons, List.cons_append, ih]
    rw [List.take_append_drop]

theorem mem_chunksOf {α : Type} (n : Nat) (l : List α) (c : List α) (hc : c ∈ chunksOf n l)
    (x : α) (hx : x ∈ c) : x ∈ l := by
  rw [← chunksOf_flatten n l]
  exact List.mem_flatten.mpr ⟨c, hc, hx⟩

theorem processChunk_ok (cols : List String) (chunk : List Row)
    (hf : ∀ f ∈ FIELDS, cols.contains f = true)
    (hnn : ∀ r ∈ chunk, r "cytokine_name" ≠ none) :
    processChunk cols chunk = Except.ok ((chunk.map storedOf).flatten) := by
  obtain ⟨ls, hls, hmap, hne, hlen⟩ := mapM_explode_ok chunk hnn
  have hcyt : cols.contains "cytokine_name" = true := hf _ (by simp [FIELDS])
  have hfo : fanOutChunk cols chunk = Except.ok ls.flatten := by
    rw [fanOutChunk, if_pos hcyt, hls]
    rfl
  have hkey : (chunk.map storedOf).flatten = ls.flatten.map projectRow := by
    rw [List.map_flatten, hmap]
  have hfind : FIELDS.find? (fun f => !cols.contains f) = none := by
    apply List.find?_eq_none.mpr
    intro f hffield
    simp only [hf f hffield, Bool.not_true]
    simp
  simp only [processChunk]
  rw [hfo, exceptBindOk]
  by_cases hLen : ls.flatten.length ≠ 0
  · rw [if_pos hLen, hfind, hkey]
  · rw [if_neg hLen]
    push_neg at hLen
    have hnil : ls.flatten = [] := List.length_eq_zero.mp hLen
    rw [hkey, hnil]
    rfl

theorem ingestGo_ok (cols : List String) :
    ∀ (chunks : List (List Row)) (acc : List (List PRow)),
      (∀ c ∈ chunks, processChunk cols c = Except.ok ((c.map storedOf).flatten)) →
      ingestGo cols chunks acc =
        (acc.reverse ++ chunks.map (fun c => (c.map storedOf).flatten), none) := by
  intro chunks
  induction chunks with
  | nil => intro acc _; simp [ingestGo]
  | cons c cs ih =>
    intro acc h
    have step : ingestGo cols (c :: cs) acc = ingestGo cols cs ((c.map storedOf).flatten :: acc) := by
      simp only [ingestGo]
      rw [h c (by simp)]
    rw [step, ih ((c.map storedOf).flatten :: acc) (fun c2 hc2 => h c2 (by simp [hc2]))]
    simp [List.reverse_cons, List.append_assoc]

theorem ingestBatches_ok (cols : List String) (rows : List Row)
    (hf : ∀ f ∈ FIELDS, cols.contains f = true)
    (hnn : ∀ r ∈ rows, r "cytokine_name" ≠ none) :
    ingestBatches cols rows =
      ((chunksOf CHUNK_SIZE rows).map (fun c => (c.map storedOf).flatten), none) := by
  rw [ingestBatches]
  rw [ingestGo_ok cols (chunksOf CHUNK_SIZE rows) []
    (fun c hc => processChunk_ok cols c hf (fun r hr => hnn r (mem_chunksOf _ _ _ hc _ hr)))]
  simp

theorem storedRows_ok (cols : List String) (rows : List Row)
    (hf : ∀ f ∈ FIELDS, cols.contains f = true)
    (hnn : ∀ r ∈ rows, r "cytokine_name" ≠ none) :
    storedRows cols rows = (rows.map storedOf).flatten := by
  rw [storedRows, ingestBatches_ok cols rows hf hnn]
  show ((chunksOf CHUNK_SIZE rows).map (fun c => (c.map storedOf).flatten)).flatten = _
  rw [flatten_map_flatten storedOf (chunksOf CHUNK_SIZE rows), chunksOf_flatten]

end Ingest

theorem lookup_map_pairs (l : List String) (g : String → Option String) (a : String) (ha : a ∈ l) :
    (l.map (fun f => (f, g f))).lookup a = some (g a) := by
  induction l with
  | nil => simp at ha
  | cons x xs ih =>
    simp only [List.map_cons, List.lookup]
    by_cases hax : a = x
    · subst hax; simp
    · have hbe : (a == x) = false := by simp [hax]
      simp only [hbe]
      exact ih ((List.mem_cons.mp ha).resolve_left hax)

namespace Ingest

theorem processChunk_ok_inv (cols : List String) (chunk : List Row) (b : List PRow)
    (h : processChunk cols chunk = Except.ok b) :
    cols.contains "cytokine_name" = true ∧
    (∀ r ∈ chunk, r "cytokine_name" ≠ none) ∧
    (chunk ≠ [] → ∀ f ∈ FIELDS, cols.contains f = true) := by
  rcases hfo : fanOutChunk cols chunk with e | ex
  · simp only [processChunk] at h
    rw [hfo, exceptBindErr] at h
    cases h
  · have hcyt : cols.contains "cytokine_name" = true := by
      by_contra hc
      have hb : cols.contains "cytokine_name" = false := by
        cases hb2 : cols.contains "cytokine_name"
        · rfl
        · exact absurd hb2 hc
      rw [fanOutChunk, hb] at hfo
      simp at hfo
    have hmm : ∃ ls, chunk.mapM explodeRow = Except.ok ls ∧ ex = ls.flatten := by
      rcases hm : chunk.mapM explodeRow with e2 | ls
      · rw [fanOutChunk, if_pos hcyt, hm] at hfo
        cases hfo
      · rw [fanOutChunk, if_pos hcyt, hm] at hfo
        have : Except.ok (ε := ImpErr) ls.flatten = Except.ok ex := hfo
        cases this
        exact ⟨ls, rfl, rfl⟩
    obtain ⟨ls, hls, hex⟩ := hmm
    refine ⟨hcyt, ?_, ?_⟩
    · intro r hr
      obtain ⟨y, hy⟩ := mapM_ok_forall explodeRow chunk ls hls r hr
      intro hnone
      rw [explodeRow, hnone] at hy
      cases hy
    · intro hne f hf
      rcases hchunk : chunk with _ | ⟨r, rest⟩
      · exact absurd hchunk hne
      subst hchunk
      obtain ⟨y, ys2, hy, hys2, hcons⟩ := mapM_cons_ok explodeRow r rest ls hls
      have hynil : y ≠ [] := by
        rcases hr : r "cytokine_name" with _ | sv
        · rw [explodeRow, hr] at hy
          cases hy
        · rw [explodeRow, hr] at hy
          have : Except.ok (ε := ImpErr)
              ((pySplit ';' sv).map (fun v => setCell r "cytokine_name" (some v))) =
              Except.ok y := hy
          cases this
          intro hcon
          exact pySplit_ne_nil ';' sv (List.map_eq_nil_iff.mp hcon)
      have hexne : ex.length ≠ 0 := by
        subst hex
        subst hcons
        simp only [List.flatten_cons, List.length_append]
        have : 0 < y.length := List.length_pos.mpr hynil
        omega
      simp only [processChunk] at h
      rw [hfo, exceptBindOk, if_pos hexne] at h
      rcases hfind : FIELDS.find? (fun f2 => !cols.contains f2) with _ | f2
      · have := List.find?_eq_none.mp hfind f hf
        simpa using this
      · rw [hfind] at h
        cases h

theorem processChunk_error_of_missing (cols : List String) (chunk : List Row)
    (hmiss : ∃ f ∈ FIELDS, cols.contains f = false) (hch : chunk ≠ []) :
    ∃ e, processChunk cols chunk = Except.error e := by
  rcases hpc : processChunk cols chunk with e | b
  · exact ⟨e, rfl⟩
  · obtain ⟨f, hf, hcf⟩ := hmiss
    have := (processChunk_ok_inv cols chunk b hpc).2.2 hch f hf
    rw [this] at hcf
    cases hcf

theorem ingestBatches_of_missing (cols : List String) (rows : List Row)
    (hmiss : ∃ f ∈ FIELDS, cols.contains f = false) (hrows : rows ≠ []) :
    (ingestBatches cols rows).1 = [] ∧ (ingestBatches cols rows).2.isSome = true := by
  rcases hr : rows with _ | ⟨x, xs⟩
  · exact absurd hr hrows
  subst hr
  rw [ingestBatches, chunksOf_cons]
  obtain ⟨e, he⟩ := processChunk_error_of_missing cols (x :: xs.take (CHUNK_SIZE - 1)) hmiss
    (by simp)
  simp only [ingestGo]
  rw [he]
  simp

theorem ingestGo_some_of_null (cols : List String) :
    ∀ (chunks : List (List Row)) (acc : List (List PRow)),
      (∃ c ∈ chunks, ∃ r ∈ c, r "cytokine_name" = none) →
      (ingestGo cols chunks acc).2.isSome = true := by
  intro chunks
  induction chunks with
  | nil =>
    rintro acc ⟨c, hc, _⟩
    simp at hc
  | cons c cs ih =>
    rintro acc ⟨c2, hc2, r, hr, hnull⟩
    rcases hpc : processChunk cols c with e | b
    · simp [ingestGo, hpc]
    · have step : ingestGo cols (c :: cs) acc = ingestGo cols cs (b :: acc) := by
        simp only [ingestGo]
        rw [hpc]
      rw [step]
      rcases List.mem_cons.mp hc2 with h1 | h1
      · subst h1
        exact absurd hnull ((processChunk_ok_inv cols c2 b hpc).2.1 r hr)
      · exact ih (b :: acc) ⟨c2, h1, r, hr, hnull⟩

theorem ingestBatches_some_of_null (cols : List String) (rows : List Row)
    (h : ∃ r ∈ rows, r "cytokine_name" = none) :
    (ingestBatches cols rows).2.isSome = true := by
  obtain ⟨r, hr, hnull⟩ := h
  rw [ingestBatches]
  apply ingestGo_some_of_null
  have hmem : r ∈ (chunksOf CHUNK_SIZE rows).flatten := by
    rw [chunksOf_flatten]
    exact hr
  obtain ⟨c, hc, hrc⟩ := List.mem_flatten.mp hmem
  exact ⟨c, hc, r, hrc, hnull⟩

theorem storedOf_length (r : Row) (s : String) (h : r "cytokine_name" = some s) :
    (storedOf r).length = (pySplit ';' s).length := by
  simp [storedOf, h]

theorem storedOf_lookup (r : Row) (pr : PRow) (hpr : pr ∈ storedOf r) (f : String)
    (hf : f ∈ FIELDS) (hne : f ≠ "cytokine_name") : pr.lookup f = some (r f) := by
  rcases hr : r "cytokine_name" with _ | s
  · rw [storedOf, hr] at hpr
    simp at hpr
  · rw [storedOf, hr] at hpr
    obtain ⟨v, hv, hpr2⟩ := List.mem_map.mp hpr
    rw [← hpr2, projectRow, lookup_map_pairs FIELDS _ f hf]
    congr 1
    rw [setCell, if_neg hne]

theorem projectRow_keys (r : Row) : (projectRow r).map Prod.fst = FIELDS :=
  keys_of_item FIELDS r

end Ingest

/-- C1: for every valid request (`page ≥ 1`, `limit ∈ [1,500]`) to either
revision of `listInteractions`, the returned `total_pages` equals
`⌈total/limit⌉` (ceiling division), the page holds at most `limit` items, and
every page strictly before the last non-empty page holds exactly `limit`
items. -/
theorem claim_C1_pagination (p : Main.Params) (db : List Row)
    (q : LocalApp.Params) (db2 : List Row)
    (hp : 1 ≤ p.page) (hl1 : 1 ≤ p.limit) (hl2 : p.limit ≤ 500)
    (hq : 1 ≤ q.page) (hm1 : 1 ≤ q.limit) (hm2 : q.limit ≤ 500) :
    ((Main.get_interactions p db).total_pages = (Main.get_interactions p db).total ⌈/⌉ p.limit ∧
     (Main.get_interactions p db).data.length ≤ p.limit ∧
     (p.page < (Main.get_interactions p db).total ⌈/⌉ p.limit →
       (Main.get_interactions p db).data.length = p.limit)) ∧
    ((LocalApp.get_interactions q db2).total_pages =
       (LocalApp.get_interactions q db2).total ⌈/⌉ q.limit ∧
     (LocalApp.get_interactions q db2).data.length ≤ q.limit ∧
     (q.page < (LocalApp.get_interactions q db2).total ⌈/⌉ q.limit →
       (LocalApp.get_interactions q db2).data.length = q.limit)) := by
  refine ⟨⟨?_, ?_, ?_⟩, ⟨?_, ?_, ?_⟩⟩
  · simp [Main.get_interactions, Nat.ceilDiv_eq_add_pred_div]
  · simp only [Main.get_interactions, List.length_map]
    exact pageSlice_le _ _ _
  · intro hlt
    simp only [Main.get_interactions, Nat.ceilDiv_eq_add_pred_div] at hlt
    simp only [Main.get_interactions, List.length_map]
    exact pageSlice_eq _ _ _ (pageWindow _ _ _ hp hl1 hlt)
  · simp [LocalApp.get_interactions, Nat.ceilDiv_eq_add_pred_div]
  · simp only [LocalApp.get_interactions, List.length_map]
    exact pageSlice_le _ _ _
  · intro hlt
    simp only [LocalApp.get_interactions, Nat.ceilDiv_eq_add_pred_div] at hlt
    simp only [LocalApp.get_interactions, List.length_map]
    exact pageSlice_eq _ _ _ (pageWindow _ _ _ hq hm1 hlt)

/-- Witness for C1 at a concrete request and store. -/
theorem claim_C1_pagination_witness :
    (Main.get_interactions Main.defaultParams [rowIL6]).data.length ≤ 50 ∧
    (LocalApp.get_interactions LocalApp.defaultParams [rowIL6]).data.length ≤ 50 := by
  have h := claim_C1_pagination Main.defaultParams [rowIL6] LocalApp.defaultParams [rowIL6]
    (by decide) (by decide) (by decide) (by decide) (by decide) (by decide)
  exact ⟨h.1.2.1, h.2.2.1⟩

theorem searchOnly_rowMatches_main (t : String) (h1 : t ≠ "") (h2 : litOk t.data) (r : Row) :
    Main.rowMatches (Main.searchOnly t) r =
      (containsCI (r "cytokine_name") t || containsCI (r "cell_type") t ||
       containsCI (r "cytokine_effect") t || containsCI (r "species") t ||
       containsCI (r "regulated_genes") t) := by
  have hbe : (t == "") = false := by simp [h1]
  simp [Main.rowMatches, Main.searchOnly, Main.defaultParams, filterClause,
    Main.searchClause, hbe, ilike_eq_containsCI t h2]

theorem searchOnly_rowMatches_local (t : String) (h1 : t ≠ "") (h2 : litOk t.data) (r : Row) :
    LocalApp.rowMatches (LocalApp.searchOnly t) r =
      (containsCI (r "cytokine_name") t || containsCI (r "cell_type") t ||
       containsCI (r "cytokine_effect") t || containsCI (r "species") t) := by
  have hbe : (t == "") = false := by simp [h1]
  simp [LocalApp.rowMatches, LocalApp.searchOnly, LocalApp.defaultParams, filterClause,
    LocalApp.searchClause, hbe, ilike_eq_containsCI t h2]

/-- C2 counterexample: with the search term `a%b` (a legal non-empty term),
the row whose cytokine_name is `axb` is returned — PostgreSQL `ILIKE` treats
`%` as a wildcard inside the interpolated pattern — even though none of the
designated columns contains the substring `a%b`, so the claim's
if-and-only-if fails as stated. -/
theorem claim_C2_counterexample :
    rowAxb ∈ Main.filteredRows (Main.searchOnly "a%b") [rowAxb] ∧
    containsCI (rowAxb "cytokine_name") "a%b" = false ∧
    containsCI (rowAxb "cell_type") "a%b" = false ∧
    containsCI (rowAxb "cytokine_effect") "a%b" = false ∧
    containsCI (rowAxb "species") "a%b" = false ∧
    containsCI (rowAxb "regulated_genes") "a%b" = false := by
  refine ⟨List.mem_filter.mpr ⟨by simp, by decide⟩,
    by decide, by decide, by decide, by decide, by decide⟩

/-- C2 (amended): for every non-empty search term free of the LIKE
metacharacters `%`, `_` and `\`, a stored row is in the match set of
`listInteractions` with only `search` set if and only if at least one
designated column (cytokine_name, cell_type, cytokine_effect, species, and —
in `main.py`, whose schema has it — regulated_genes) case-insensitively
contains the term as a substring; NULL columns contain nothing. -/
theorem claim_C2_search_iff (t : String) (h1 : t ≠ "") (h2 : litOk t.data) :
    (∀ (r : Row) (db : List Row),
      r ∈ Main.filteredRows (Main.searchOnly t) db ↔
        r ∈ db ∧
          (containsCI (r "cytokine_name") t || containsCI (r "cell_type") t ||
           containsCI (r "cytokine_effect") t || containsCI (r "species") t ||
           containsCI (r "regulated_genes") t) = true) ∧
    (∀ (r : Row) (db : List Row),
      r ∈ LocalApp.filteredRows (LocalApp.searchOnly t) db ↔
        r ∈ db ∧
          (containsCI (r "cytokine_name") t || containsCI (r "cell_type") t ||
           containsCI (r "cytokine_effect") t || containsCI (r "species") t) = true) := by
  constructor
  · intro r db
    rw [mem_filteredRows_main, searchOnly_rowMatches_main t h1 h2 r]
  · intro r db
    rw [mem_filteredRows_local, searchOnly_rowMatches_local t h1 h2 r]

/-- Witness for C2 at a concrete term and store: searching `il-6` matches the
row whose cytokine_name is `IL-6` in both revisions. -/
theorem claim_C2_search_iff_witness :
    rowIL6 ∈ Main.filteredRows (Main.searchOnly "il-6") [rowIL6] ∧
    rowIL6 ∈ LocalApp.filteredRows (LocalApp.searchOnly "il-6") [rowIL6] := by
  have h := claim_C2_search_iff "il-6" (by decide) (by decide)
  exact ⟨(h.1 rowIL6 [rowIL6]).mpr ⟨by simp, by decide⟩,
    (h.2 rowIL6 [rowIL6]).mpr ⟨by simp, by decide⟩⟩

/-- C3 counterexample, two parts at concrete inputs: (1) in `main.py` the
cytokine_name filter value `a_b` returns the row whose cytokine_name is `axb`
(LIKE `_` wildcard) although that column does not contain `a_b`; (2) in
`local_app.py` a present `experimental_system_type` filter is not enforced —
the pruned model lacks the column, `hasattr` fails, and every row is returned
regardless of the filter value. -/
theorem claim_C3_counterexample :
    (rowAxb ∈ Main.filteredRows Main.pWild [rowAxb] ∧
     containsCI (rowAxb "cytokine_name") "a_b" = false) ∧
    (rowIL6 ∈ LocalApp.filteredRows LocalApp.pVest [rowIL6] ∧
     present LocalApp.pVest.experimental_system_type = true ∧
     containsCI (rowIL6 "experimental_system_type") "zzz" = false) := by
  refine ⟨⟨List.mem_filter.mpr ⟨by simp, by decide⟩, by decide⟩,
    ⟨List.mem_filter.mpr ⟨by simp, by decide⟩, by decide, by decide⟩⟩

/-- C3 (amended): provided every present filter value is free of the LIKE
metacharacters `%`, `_` and `\`, the present filters are conjoined: a stored
row is in the match set if and only if, for each present filter that the
revision enforces, the corresponding column case-insensitively contains the
given substring, with the search parameter contributing one ORed subclause.
In `local_app.py` the `experimental_system_type` and `publication_type`
parameters are echoed but not enforced (the pruned model lacks those
columns), so they do not constrain the match set. -/
theorem claim_C3_filters_conjoined (p : Main.Params) (q : LocalApp.Params)
    (hp1 : litOkOpt p.cytokine_name) (hp2 : litOkOpt p.cell_type)
    (hp3 : litOkOpt p.species) (hp4 : litOkOpt p.causality_type)
    (hp5 : litOkOpt p.experimental_system_type) (hp6 : litOkOpt p.publication_type)
    (hp7 : litOkOpt p.regulated_genes) (hp8 : litOkOpt p.search)
    (hq1 : litOkOpt q.cytokine_name) (hq2 : litOkOpt q.cell_type)
    (hq3 : litOkOpt q.species) (hq4 : litOkOpt q.causality_type)
    (hq5 : litOkOpt q.search) :
    (∀ (r : Row) (db : List Row),
      r ∈ Main.filteredRows p db ↔
        r ∈ db ∧
        ((present p.cytokine_name = true →
           containsCI (r "cytokine_name") (optVal p.cytokine_name) = true) ∧
         (present p.cell_type = true →
           containsCI (r "cell_type") (optVal p.cell_type) = true) ∧
         (present p.species = true →
           containsCI (r "species") (optVal p.species) = true) ∧
         (present p.causality_type = true →
           containsCI (r "causality_type") (optVal p.causality_type) = true) ∧
         (present p.experimental_system_type = true →
           containsCI (r "experimental_system_type") (optVal p.experimental_system_type) = true) ∧
         (present p.publication_type = true →
           containsCI (r "publication_type") (optVal p.publication_type) = true) ∧
         (present p.regulated_genes = true →
           containsCI (r "regulated_genes") (optVal p.regulated_genes) = true) ∧
         (present p.search = true →
           (containsCI (r "cytokine_name") (optVal p.search) ||
            containsCI (r "cell_type") (optVal p.search) ||
            containsCI (r "cytokine_effect") (optVal p.search) ||
            containsCI (r "species") (optVal p.search) ||
            containsCI (r "regulated_genes") (optVal p.search)) = true))) ∧
    (∀ (r : Row) (db : List Row),
      r ∈ LocalApp.filteredRows q db ↔
        r ∈ db ∧
        ((present q.cytokine_name = true →
           containsCI (r "cytokine_name") (optVal q.cytokine_name) = true) ∧
         (present q.cell_type = true →
           containsCI (r "cell_type") (optVal q.cell_type) = true) ∧
         (present q.species = true →
           containsCI (r "species") (optVal q.species) = true) ∧
         (present q.causality_type = true →
           containsCI (r "causality_type") (optVal q.causality_type) = true) ∧
         (present q.search = true →
           (containsCI (r "cytokine_name") (optVal q.search) ||
            containsCI (r "cell_type") (optVal q.search) ||
            containsCI (r "cytokine_effect") (optVal q.search) ||
            containsCI (r "species") (optVal q.search)) = true))) := by
  constructor
  · intro r db
    rw [mem_filteredRows_main]
    apply and_congr_right
    intro _
    simp only [Main.rowMatches, Bool.and_eq_true]
    rw [filterClause_iff p.cytokine_name (r "cytokine_name") hp1,
      filterClause_iff p.cell_type (r "cell_type") hp2,
      filterClause_iff p.species (r "species") hp3,
      filterClause_iff p.causality_type (r "causality_type") hp4,
      filterClause_iff p.experimental_system_type (r "experimental_system_type") hp5,
      filterClause_iff p.publication_type (r "publication_type") hp6,
      filterClause_iff p.regulated_genes (r "regulated_genes") hp7,
      searchClause_iff_main p r hp8]
    tauto
  · intro r db
    rw [mem_filteredRows_local]
    apply and_congr_right
    intro _
    simp only [LocalApp.rowMatches, Bool.and_eq_true]
    rw [filterClause_iff q.cytokine_name (r "cytokine_name") hq1,
      filterClause_iff q.cell_type (r "cell_type") hq2,
      filterClause_iff q.species (r "species") hq3,
      filterClause_iff q.causality_type (r "causality_type") hq4,
      searchClause_iff_local q r hq5]
    tauto

/-- Witness for C3 at concrete requests combining two enforced filters. -/
theorem claim_C3_filters_conjoined_witness :
    rowIL6 ∈ Main.filteredRows Main.pMainTwo [rowIL6] ∧
    rowIL6 ∈ LocalApp.filteredRows LocalApp.pLocalTwo [rowIL6] := by
  have h := claim_C3_filters_conjoined Main.pMainTwo LocalApp.pLocalTwo
    (by decide) (by decide) (by decide) (by decide) (by decide) (by decide) (by decide)
    (by decide) (by decide) (by decide) (by decide) (by decide) (by decide)
  exact ⟨(h.1 rowIL6 [rowIL6]).mpr ⟨by simp, by decide⟩,
    (h.2 rowIL6 [rowIL6]).mpr ⟨by simp, by decide⟩⟩

/-- C4: when every declared column is present and every source row has a
non-NULL fan-out cell, ingestion stores, for each source row, exactly one row
per `';'`-separated piece of its cytokine_name — the stored rows are the
concatenated per-row fan-outs, each fan-out has length N (the number of
pieces), and each stored row agrees with its source row on every other
declared column. -/
theorem claim_C4_fanout (cols : List String) (rows : List Row)
    (hf : ∀ f ∈ Ingest.FIELDS, cols.contains f = true)
    (hnn : ∀ r ∈ rows, r "cytokine_name" ≠ none) :
    (Ingest.ingestBatches cols rows).2 = none ∧
    Ingest.storedRows cols rows = (rows.map Ingest.storedOf).flatten ∧
    (∀ r ∈ rows, ∀ s, r "cytokine_name" = some s →
      (Ingest.storedOf r).length = (pySplit ';' s).length ∧
      (∀ pr ∈ Ingest.storedOf r, ∀ f ∈ Ingest.FIELDS, f ≠ "cytokine_name" →
        pr.lookup f = some (r f))) := by
  refine ⟨?_, Ingest.storedRows_ok cols rows hf hnn, ?_⟩
  · rw [Ingest.ingestBatches_ok cols rows hf hnn]
  · intro r _ s hs
    exact ⟨Ingest.storedOf_length r s hs,
      fun pr hpr f hf2 hne => Ingest.storedOf_lookup r pr hpr f hf2 hne⟩

/-- Witness for C4: ingesting the three-row example file, where row 2's
fan-out field is `IL-6;IL-10`, yields 4 stored rows in total. -/
theorem claim_C4_fanout_witness :
    Ingest.exRow2 "cytokine_name" = some "IL-6;IL-10" ∧
    (Ingest.storedRows Ingest.FIELDS Ingest.exRows).length = 4 := by
  have h := claim_C4_fanout Ingest.FIELDS Ingest.exRows (by decide) (by decide)
  refine ⟨rfl, ?_⟩
  rw [h.2.1]
  decide

theorem storedOf_keys (r : Row) (pr : Ingest.PRow) (hpr : pr ∈ Ingest.storedOf r) :
    pr.map Prod.fst = Ingest.FIELDS := by
  rcases hr : r "cytokine_name" with _ | s
  · rw [Ingest.storedOf, hr] at hpr
    simp at hpr
  · rw [Ingest.storedOf, hr] at hpr
    obtain ⟨v, _, hpr2⟩ := List.mem_map.mp hpr
    rw [← hpr2]
    exact Ingest.projectRow_keys _

/-- C5 counterexample: a source file with a header missing the declared
column url but containing zero data rows is ingested successfully — the chunk
iterator yields no chunks, so the per-chunk projection that would raise the
KeyError never runs, no error is reported and the exit code is 0, contradicting
the claim's universal hard failure. -/
theorem claim_C5_counterexample :
    "url" ∈ Ingest.FIELDS ∧
    Ingest.colsMissingUrl.contains "url" = false ∧
    Ingest.ingestBatches Ingest.colsMissingUrl [] = ([], none) ∧
    Ingest.ingestExit Ingest.colsMissingUrl [] = 0 := by
  exact ⟨by decide, by decide, rfl, rfl⟩

/-- C5 (amended): for every source file with at least one data row, a missing
declared column is a hard failure — the run aborts with a fatal error and
nonzero exit before any batch (hence any row) is written; and a source column
not in the declared set is silently dropped: with all declared columns present
(and non-NULL fan-out cells) the run succeeds and every stored row carries
exactly the declared columns. -/
theorem claim_C5_missing_column (cols : List String) (rows : List Row) (hne : rows ≠ []) :
    ((∃ f ∈ Ingest.FIELDS, cols.contains f = false) →
      (Ingest.ingestBatches cols rows).1 = [] ∧
      (Ingest.ingestBatches cols rows).2.isSome = true ∧
      Ingest.ingestExit cols rows = 1) ∧
    ((∀ f ∈ Ingest.FIELDS, cols.contains f = true) →
      (∀ r ∈ rows, r "cytokine_name" ≠ none) →
      (Ingest.ingestBatches cols rows).2 = none ∧
      (∀ b ∈ (Ingest.ingestBatches cols rows).1, ∀ pr ∈ b,
        pr.map Prod.fst = Ingest.FIELDS)) := by
  constructor
  · intro hmiss
    obtain ⟨h1, h2⟩ := Ingest.ingestBatches_of_missing cols rows hmiss hne
    refine ⟨h1, h2, ?_⟩
    rw [Ingest.ingestExit, if_pos h2]
  · intro hf hnn
    have hok := Ingest.ingestBatches_ok cols rows hf hnn
    constructor
    · rw [hok]
    · intro b hb pr hpr
      rw [hok] at hb
      obtain ⟨c, _, hc2⟩ := List.mem_map.mp hb
      rw [← hc2] at hpr
      obtain ⟨l, hl, hprl⟩ := List.mem_flatten.mp hpr
      obtain ⟨r, _, hr2⟩ := List.mem_map.mp hl
      rw [← hr2] at hprl
      exact storedOf_keys r pr hprl

/-- Witness for C5: a header missing url with one data row aborts with exit 1
and writes nothing, while a header with an extra undeclared column succeeds. -/
theorem claim_C5_missing_column_witness :
    (Ingest.ingestBatches Ingest.colsMissingUrl Ingest.exRows).1 = [] ∧
    Ingest.ingestExit Ingest.colsMissingUrl Ingest.exRows = 1 ∧
    (Ingest.ingestBatches Ingest.exColsExtra Ingest.exRows).2 = none := by
  have h1 := (claim_C5_missing_column Ingest.colsMissingUrl Ingest.exRows
    (by simp [Ingest.exRows])).1
    ⟨"url", by decide, by decide⟩
  have h2 := (claim_C5_missing_column Ingest.exColsExtra Ingest.exRows
    (by simp [Ingest.exRows])).2
    (by decide) (by decide)
  exact ⟨h1.1, h1.2.2, h2.1⟩

/-- C6 counterexample: in `local_app.py`, `fields=cytokine_name,bogus_field`
projects to `id` and `cytokine_name` — `id` is always prepended even though it
was not requested and is not in the pruned recognized column set — so the
projection is not exactly the requested recognized field names. -/
theorem claim_C6_counterexample :
    LocalApp.requestedFields (some "cytokine_name,bogus_field") = ["id", "cytokine_name"] ∧
    "id" ∉ LocalApp.ALL_COLUMNS ∧
    ((LocalApp.get_interactions LocalApp.pFieldsLocal [rowIL6]).data.map
      (fun item => item.map Prod.fst)) = [["id", "cytokine_name"]] := by
  refine ⟨by decide, by decide, ?_⟩
  rfl

/-- C6 (amended): in `main.py` the projected rows contain exactly the
requested field names that are in the recognized column set (unrecognized
names silently ignored, `id` — being recognized — included exactly when
requested), full set when `fields` is absent; in particular
`fields=cytokine_name,bogus_field` projects to cytokine_name alone.  In
`local_app.py`, `id` is always prepended regardless of the request, followed
by the requested recognized non-id names; the full (id-less) recognized set is
used when `fields` is absent. -/
theorem claim_C6_fields (f : String) (hf : f ≠ "") :
    (Main.requestedFields none = Main.ALL_COLUMNS) ∧
    (∀ x, x ∈ Main.requestedFields (some f) ↔
      x ∈ (pySplit ',' f).map pyStrip ∧ x ∈ Main.ALL_COLUMNS) ∧
    (Main.requestedFields (some "cytokine_name,bogus_field") = ["cytokine_name"]) ∧
    (∀ (p : Main.Params) (db : List Row), ∀ item ∈ (Main.get_interactions p db).data,
      item.map Prod.fst = Main.requestedFields p.fields) ∧
    (LocalApp.requestedFields none = LocalApp.ALL_COLUMNS) ∧
    (∀ x, x ∈ LocalApp.requestedFields (some f) ↔
      x = "id" ∨ (x ∈ (pySplit ',' f).map pyStrip ∧ x ∈ LocalApp.ALL_COLUMNS ∧ x ≠ "id")) ∧
    (∀ (q : LocalApp.Params) (db : List Row), ∀ item ∈ (LocalApp.get_interactions q db).data,
      item.map Prod.fst = LocalApp.requestedFields q.fields) := by
  have hbe : (f == "") = false := by simp [hf]
  refine ⟨rfl, ?_, by decide, ?_, rfl, ?_, ?_⟩
  · intro x
    simp [Main.requestedFields, hbe, List.mem_filter]
  · intro p db item hitem
    simp only [Main.get_interactions] at hitem
    obtain ⟨r, _, hr2⟩ := List.mem_map.mp hitem
    rw [← hr2]
    exact keys_of_item _ _
  · intro x
    simp only [LocalApp.requestedFields, hbe, Bool.false_eq_true, if_false, List.mem_cons,
      List.mem_filter, Bool.and_eq_true, bne_iff_ne, ne_eq]
    constructor
    · rintro (h | ⟨h1, h2, h3⟩)
      · exact Or.inl h
      · exact Or.inr ⟨h1, by simpa using h2, h3⟩
    · rintro (h | ⟨h1, h2, h3⟩)
      · exact Or.inl h
      · exact Or.inr ⟨h1, by simpa using h2, h3⟩
  · intro q db item hitem
    simp only [LocalApp.get_interactions] at hitem
    obtain ⟨r, _, hr2⟩ := List.mem_map.mp hitem
    rw [← hr2]
    exact keys_of_item _ _

/-- Witness for C6 at the concrete fields value of the claim. -/
theorem claim_C6_fields_witness :
    Main.requestedFields (some "cytokine_name,bogus_field") = ["cytokine_name"] ∧
    "id" ∈ LocalApp.requestedFields (some "cytokine_name,bogus_field") := by
  have h := claim_C6_fields "cytokine_name,bogus_field" (by decide)
  exact ⟨h.2.2.1, (h.2.2.2.2.2.1 "id").mpr (Or.inl rfl)⟩

/-- C7: for every column name outside the recognized set, both revisions of
`/api/filters/{column}` fail with the client error 400 and a descriptive
message, and the result does not depend on the store (the handler rejects the
name before opening a session), so no server error can arise. -/
theorem claim_C7_invalid_column (column : String) (lim : Nat)
    (h1 : column ∉ Main.ALL_COLUMNS) (h2 : column ∉ LocalApp.ALL_COLUMNS) :
    (∀ db : List Row, Main.get_filter_options column lim db =
      Except.error (400, "Invalid column: " ++ column)) ∧
    (∀ db : List Row, LocalApp.get_filter_options column lim db =
      Except.error (400, "Invalid column: " ++ column)) := by
  constructor
  · intro db
    simp [Main.get_filter_options, h1]
  · intro db
    simp [LocalApp.get_filter_options, h2]

/-- Witness for C7 at the concrete column name of the claim. -/
theorem claim_C7_invalid_column_witness :
    Main.get_filter_options "not_a_column" 100 [] =
      Except.error (400, "Invalid column: " ++ "not_a_column") ∧
    LocalApp.get_filter_options "not_a_column" 100 [rowIL6] =
      Except.error (400, "Invalid column: " ++ "not_a_column") := by
  have h := claim_C7_invalid_column "not_a_column" 100 (by decide) (by decide)
  exact ⟨h.1 [], h.2 [rowIL6]⟩

/-- C8 counterexample: the empty string is a non-null stored value of the
species column, yet the introspection endpoint drops it (the Python `if v[0]`
truthiness filter), so the endpoint does not return all distinct non-null
stored values. -/
theorem claim_C8_counterexample :
    rowEmptySpecies "species" = some "" ∧
    Main.get_filter_options "species" 100 [rowEmptySpecies] = Except.ok ("species", []) := by
  exact ⟨rfl, rfl⟩

/-- C8 (amended): for every recognized column, `/api/filters/{column}` (with
the validated limit range 1..1000, default 100) returns exactly the distinct
non-null, non-empty stored values of that column — deduplicated exactly as
stored, with no case-folding of case-sensitively distinct values — sorted in
code-point order, and the result never exceeds the limit; the stated equality
of value sets holds whenever the distinct non-null values fit within the
limit (the cap is applied to the distinct set before sorting). -/
theorem claim_C8_filter_values (column : String) (lim : Nat) (db : List Row)
    (hl1 : 1 ≤ lim) (hl2 : lim ≤ 1000)
    (hcap : ((db.map (fun r => r column)).filterMap id).dedup.length ≤ lim) :
    (column ∈ Main.ALL_COLUMNS →
      ∃ vs, Main.get_filter_options column lim db = Except.ok (column, vs) ∧
        List.Sorted (· ≤ ·) vs ∧ vs.Nodup ∧ vs.length ≤ lim ∧
        (∀ v, v ∈ vs ↔ some v ∈ db.map (fun r => r column) ∧ v ≠ "")) ∧
    (column ∈ LocalApp.ALL_COLUMNS →
      ∃ vs, LocalApp.get_filter_options column lim db = Except.ok (column, vs) ∧
        List.Sorted (· ≤ ·) vs ∧ vs.Nodup ∧ vs.length ≤ lim ∧
        (∀ v, v ∈ vs ↔ some v ∈ db.map (fun r => r column) ∧ v ≠ "")) := by
  constructor
  · intro hmem
    refine ⟨_, ?_, pySorted_sorted_le _, filterPipeline_nodup _ _, filterPipeline_len _ _,
      fun v => filterPipeline_mem _ _ hcap v⟩
    rw [Main.get_filter_options, if_pos (contains_true_of_mem _ _ hmem)]
  · intro hmem
    refine ⟨_, ?_, pySorted_sorted_le _, filterPipeline_nodup _ _, filterPipeline_len _ _,
      fun v => filterPipeline_mem _ _ hcap v⟩
    rw [LocalApp.get_filter_options, if_pos (contains_true_of_mem _ _ hmem)]

/-- Witness for C8: a species column holding the case-sensitively distinct
values IL-6, il-6 and TNF returns them all, sorted and deduplicated exactly
as stored, with no case-folding. -/
theorem claim_C8_filter_values_witness :
    Main.get_filter_options "species" 100 rowsSpecies =
      Except.ok ("species", ["IL-6", "TNF", "il-6"]) ∧
    (∃ vs, Main.get_filter_options "species" 100 rowsSpecies = Except.ok ("species", vs) ∧
      vs.Nodup ∧ (∀ v, v ∈ vs ↔ some v ∈ rowsSpecies.map (fun r => r "species") ∧ v ≠ "")) := by
  have h := (claim_C8_filter_values "species" 100 rowsSpecies (by decide) (by decide)
    (by decide)).1 (by decide)
  obtain ⟨vs, hvs, _, hnodup, _, hmem⟩ := h
  exact ⟨rfl, vs, hvs, hnodup, hmem⟩

/-- C9 (implicit): the fan-out transform is partial — if any source row's
cytokine_name cell is NULL after null-normalization, `x.split(';')` raises and
the whole ingestion run aborts with a fatal error and exit code 1; the run
succeeds precisely under the precondition that every source row has a
non-NULL cytokine_name (given the declared columns are present). -/
theorem claim_C9_null_fanout (cols : List String) (rows : List Row) :
    ((∃ r ∈ rows, r "cytokine_name" = none) →
      (Ingest.ingestBatches cols rows).2.isSome = true ∧
      Ingest.ingestExit cols rows = 1) ∧
    ((∀ f ∈ Ingest.FIELDS, cols.contains f = true) →
      (∀ r ∈ rows, r "cytokine_name" ≠ none) →
      (Ingest.ingestBatches cols rows).2 = none ∧
      Ingest.ingestExit cols rows = 0) := by
  constructor
  · intro hnull
    have h := Ingest.ingestBatches_some_of_null cols rows hnull
    exact ⟨h, by rw [Ingest.ingestExit, if_pos h]⟩
  · intro hf hnn
    have h := Ingest.ingestBatches_ok cols rows hf hnn
    constructor
    · rw [h]
    · rw [Ingest.ingestExit, if_neg]
      rw [h]
      simp

/-- Witness for C9: one NULL cytokine_name cell aborts the run with exit 1;
the example file with all cells present succeeds. -/
theorem claim_C9_null_fanout_witness :
    (Ingest.ingestBatches Ingest.FIELDS [Ingest.nullRow]).2.isSome = true ∧
    Ingest.ingestExit Ingest.FIELDS [Ingest.nullRow] = 1 ∧
    (Ingest.ingestBatches Ingest.FIELDS Ingest.exRows).2 = none := by
  have h1 := (claim_C9_null_fanout Ingest.FIELDS [Ingest.nullRow]).1
    ⟨Ingest.nullRow, by simp, rfl⟩
  have h2 := (claim_C9_null_fanout Ingest.FIELDS Ingest.exRows).2 (by decide) (by decide)
  exact ⟨h1.1, h1.2, h2.1⟩

/-- C10 (implicit): fan-out never spans a batch boundary — on a successful
run, the batch appended for each source chunk is exactly the concatenation of
the complete per-row fan-outs of that chunk's rows, and the chunks partition
the source rows, so all stored rows produced from one source row land in the
same batch append. -/
theorem claim_C10_batch_boundary (cols : List String) (rows : List Row)
    (hf : ∀ f ∈ Ingest.FIELDS, cols.contains f = true)
    (hnn : ∀ r ∈ rows, r "cytokine_name" ≠ none) :
    (Ingest.ingestBatches cols rows).1 =
      (Ingest.chunksOf Ingest.CHUNK_SIZE rows).map
        (fun c => (c.map Ingest.storedOf).flatten) ∧
    (Ingest.chunksOf Ingest.CHUNK_SIZE rows).flatten = rows := by
  exact ⟨by rw [Ingest.ingestBatches_ok cols rows hf hnn], Ingest.chunksOf_flatten _ _⟩

/-- Witness for C10: the example file fits in one chunk, whose single batch is
the concatenated fan-out of its three source rows. -/
theorem claim_C10_batch_boundary_witness :
    (Ingest.ingestBatches Ingest.FIELDS Ingest.exRows).1 =
      [(Ingest.exRows.map Ingest.storedOf).flatten] := by
  have h := claim_C10_batch_boundary Ingest.FIELDS Ingest.exRows (by decide) (by decide)
  rw [h.1]
  rfl

end CytokineKB
